import Mathlib

/-!
Verification of the message-deduplication and remote-backup core of the
`cutesysj` data-journal application, against its natural-language spec.

The Python source is shallowly embedded:

* text is modelled as `List Char` (a Python `str` is a sequence of Unicode
  code points, so indexing and slicing can never fall inside a code point,
  exactly as in the source);
* UTF-8 byte sizes are computed per code point, mirroring
  `len(ch.encode("utf-8"))`;
* `sqlite` tables are modelled as lists of row records, with the
  `INSERT OR IGNORE` + `UNIQUE(dedup_key)` pair modelled as a guarded append;
* `hashlib.sha256(...).hexdigest()` is modelled as an injective,
  whitespace-free rendering of the exact bytes fed to the hasher
  (collision-freedom of SHA-256 is the standing assumption);
* network and filesystem effects are made explicit: the remote content
  store is a function `String → Option String` from path to content, and
  the sync engine returns a record stating its decision, the persisted
  state file after the attempt, and how many remote reads/writes happened.
-/

set_option linter.unusedVariables false
set_option maxHeartbeats 1000000

/-! ### UTF-8 byte size of a code point (src/backup.py, `len(ch.encode("utf-8"))`) -/


/-- Byte length of the UTF-8 encoding of one code point, as computed by
Python's `len(ch.encode("utf-8"))` for the characters of a `str`
(Lean `Char` excludes surrogates, exactly like Python `str` code points
that can be UTF-8 encoded). -/
def utf8Size (c : Char) : Nat :=
  if c.val < 0x80 then 1
  else if c.val < 0x800 then 2
  else if c.val < 0x10000 then 3
  else 4

/-- UTF-8 byte length of a code-point sequence: `len(s.encode("utf-8"))`. -/
def utf8Len (l : List Char) : Nat := (l.map utf8Size).sum

/-! ### Python `str.splitlines(keepends=True)` (used by
`_split_text_chunks_by_bytes` in src/backup.py lines 256) -/

/-- The line-boundary characters recognised by Python `str.splitlines`. -/
def isPyLineBreak (c : Char) : Bool :=
  c = '\n' || c = '\r' || c = '\x0b' || c = '\x0c' ||
  c = '\x1c' || c = '\x1d' || c = '\x1e' || c = '\x85' ||
  c = '\u2028' || c = '\u2029'

/-- Worker for `text.splitlines(keepends=True)`: `acc` holds the characters
of the current (unterminated) line in reverse.  A `"\r\n"` pair counts as a
single line boundary, as in Python. -/
def pySplitlinesKeepGo : List Char → List Char → List (List Char)
  | [], acc => if acc.isEmpty then [] else [acc.reverse]
  | '\r' :: '\n' :: rest, acc =>
      (acc.reverse ++ ['\r', '\n']) :: pySplitlinesKeepGo rest []
  | c :: rest, acc =>
      if isPyLineBreak c then (acc.reverse ++ [c]) :: pySplitlinesKeepGo rest []
      else pySplitlinesKeepGo rest (c :: acc)

/-- Python `text.splitlines(keepends=True)`. -/
def pySplitlinesKeep (text : List Char) : List (List Char) :=
  pySplitlinesKeepGo text []

/-! ### `_split_text_chunks_by_bytes` (src/backup.py lines 224-269) -/

/-- The mutable locals of `_split_text_chunks_by_bytes`:
`chunks`, `current_lines`, `current_size`. -/
structure SplitState where
  chunks : List (List Char)
  currentLines : List (List Char)
  currentSize : Nat
deriving DecidableEq

/-- The nested `flush_current()` closure of `_split_text_chunks_by_bytes`
(src/backup.py lines 234-239): if `current_lines` is non-empty, append their
concatenation as one chunk and reset the accumulator. -/
def flushCurrent (st : SplitState) : SplitState :=
  if st.currentLines.isEmpty then st
  else { chunks := st.chunks ++ [st.currentLines.flatten], currentLines := [], currentSize := 0 }

/-- Worker for the nested `append_long_line_segments(line)` closure
(src/backup.py lines 241-254): greedily packs the characters of an
over-long line into byte-bounded segments, never splitting a code point. -/
def appendLongLineSegmentsGo (maxBytes : Int) :
    List Char → List (List Char) → List Char → Nat → List (List Char)
  | [], chunks, seg, _ => if seg.isEmpty then chunks else chunks ++ [seg]
  | ch :: rest, chunks, seg, segSize =>
      if seg ≠ [] ∧ (segSize + utf8Size ch : Int) > maxBytes then
        appendLongLineSegmentsGo maxBytes rest (chunks ++ [seg]) [ch] (utf8Size ch)
      else
        appendLongLineSegmentsGo maxBytes rest chunks (seg ++ [ch]) (segSize + utf8Size ch)

/-- `append_long_line_segments(line)` applied to the current `chunks` list. -/
def appendLongLineSegments (maxBytes : Int) (line : List Char)
    (chunks : List (List Char)) : List (List Char) :=
  appendLongLineSegmentsGo maxBytes line chunks [] 0

/-- The `for line in text.splitlines(keepends=True)` loop of
`_split_text_chunks_by_bytes` (src/backup.py lines 256-266). -/
def splitLoop (maxBytes : Int) : List (List Char) → SplitState → SplitState
  | [], st => st
  | line :: rest, st =>
      let lineSize := utf8Len line
      if (lineSize : Int) > maxBytes then
        let st1 := flushCurrent st
        splitLoop maxBytes rest
          { st1 with chunks := appendLongLineSegments maxBytes line st1.chunks }
      else
        let st1 :=
          if st.currentLines ≠ [] ∧ (st.currentSize + lineSize : Int) > maxBytes then
            flushCurrent st
          else st
        splitLoop maxBytes rest
          { st1 with currentLines := st1.currentLines ++ [line],
                     currentSize := st1.currentSize + lineSize }

/-- `_split_text_chunks_by_bytes(text, max_bytes)` (src/backup.py lines
224-269): greedy line-oriented packing of `text` into chunks of at most
`max_bytes` UTF-8 bytes, with over-long lines split on code-point
boundaries; returns `[text]` for a non-positive limit, and always at least
one (possibly empty) chunk. -/
def _split_text_chunks_by_bytes (text : List Char) (maxBytes : Int) : List (List Char) :=
  if maxBytes ≤ 0 then [text]
  else if text.isEmpty then [[]]
  else
    let st := flushCurrent (splitLoop maxBytes (pySplitlinesKeep text) ⟨[], [], 0⟩)
    if st.chunks.isEmpty then [[]] else st.chunks

/-- Invariant of the chunking loop: every produced chunk fits in
`maxBytes` UTF-8 bytes, `current_size` tracks the byte size of the
accumulated `current_lines`, and that size fits in `maxBytes` too. -/
def ChunksBounded (maxBytes : Int) (st : SplitState) : Prop :=
  (∀ c ∈ st.chunks, (utf8Len c : Int) ≤ maxBytes)
    ∧ utf8Len st.currentLines.flatten = st.currentSize
    ∧ (st.currentSize : Int) ≤ maxBytes

/-! ### Python `str.strip()` and `_canonicalize_sender` (src/storage.py lines 242-246) -/

/-- The characters stripped by Python `str.strip()` (the `str.isspace`
class: ASCII whitespace, the C1 separators, NBSP and the Unicode space
separators). -/
def isPySpace (c : Char) : Bool :=
  c = ' ' || c = '\t' || c = '\n' || c = '\x0b' || c = '\x0c' || c = '\r' ||
  c = '\x1c' || c = '\x1d' || c = '\x1e' || c = '\x1f' || c = '\x85' ||
  c = '\xa0' || c = '\u1680' ||
  ('\u2000' <= c && c <= '\u200a') ||
  c = '\u2028' || c = '\u2029' || c = '\u202f' || c = '\u205f' || c = '\u3000'

/-- Python `s.strip()` on a code-point sequence: drop leading and trailing
whitespace. -/
def pyStrip (l : List Char) : List Char :=
  ((l.dropWhile isPySpace).reverse.dropWhile isPySpace).reverse

/-- Python `s.strip()` on a string. -/
def pyStripStr (s : String) : String := ⟨pyStrip s.data⟩

/-- `_canonicalize_sender(sender, me_sender, other_sender)` (src/storage.py
lines 242-246): strip the raw sender, return `me_sender` on an exact match
of the stripped value, `other_sender` otherwise.  (`sender or ""` only
replaces Python `None`, which a `String` argument cannot be.) -/
def _canonicalize_sender (sender me_sender other_sender : String) : String :=
  let s := pyStripStr sender
  if s = me_sender then me_sender else other_sender

/-! ### Dedup keys and `import_messages` (src/storage.py lines 108-239)

`kakao_parser.py` (providing `KakaoMessage` and `normalize_text_for_dedup`)
is not part of the sources under review; the spec describes
`normalize(text)` only as a pure, deterministic, total function, so the
normaliser is taken as an arbitrary function parameter `normalize`
throughout. -/

/-- A Python `datetime` at second precision, as produced by
`datetime.fromisoformat` on the stored ISO strings (`isoformat` round-trips
it, so the structured value stands for the stored `dt` string). -/
structure PyDateTime where
  year : Nat
  month : Nat
  day : Nat
  hour : Nat
  minute : Nat
  second : Nat
deriving DecidableEq

/-- `_dt_minute(dt)` (src/storage.py lines 108-109): the minute-truncated
timestamp.  The source renders it with `strftime("%Y-%m-%dT%H:%M")`, which
is injective on the five rendered fields, so the structured value stands
for the rendered string. -/
structure DtMinute where
  year : Nat
  month : Nat
  day : Nat
  hour : Nat
  minute : Nat
deriving DecidableEq

def _dt_minute (dt : PyDateTime) : DtMinute :=
  ⟨dt.year, dt.month, dt.day, dt.hour, dt.minute⟩

/-- `_dedup_key(dt_minute, norm_text)` (src/storage.py lines 112-114):
the source hashes `f"{dt_minute}\n{norm_text}"` with SHA-256 and keys the
table on the hex digest.  The digest is modelled as the injective pair of
its two preimage components (SHA-256 collision-freedom is assumed). -/
structure DedupKey where
  dt_minute : DtMinute
  norm_text : String
deriving DecidableEq

def _dedup_key (dtm : DtMinute) (norm_text : String) : DedupKey := ⟨dtm, norm_text⟩

/-- Modelled from the spec: `KakaoMessage` comes from the absent
`kakao_parser.py`; per the spec's data model a parsed message carries a
timestamp, a free-text sender and a body. -/
structure KakaoMessage where
  dt : PyDateTime
  sender : String
  text : String
deriving DecidableEq

/-- One row of the `messages` table (schema in src/storage.py lines 16-26):
`dt` stands for the stored ISO timestamp string, and `dedup_key` carries
the UNIQUE constraint. -/
structure MessageRow where
  dt : PyDateTime
  dt_minute : DtMinute
  sender : String
  text : String
  norm_text : String
  dedup_key : DedupKey
  source : Option String
deriving DecidableEq

/-- `INSERT OR IGNORE INTO messages ...` under the `UNIQUE(dedup_key)`
constraint: append the row when no existing row has its key (`rowcount == 1`),
otherwise leave the table unchanged (`rowcount == 0`). -/
def insertOrIgnore (table : List MessageRow) (row : MessageRow) :
    List MessageRow × Bool :=
  if table.any (fun r => r.dedup_key = row.dedup_key) then (table, false)
  else (table ++ [row], true)

/-- `import_messages(db_path, messages, source)` (src/storage.py lines
214-239): for each message in order, compute the minute truncation, the
normalised text and the dedup key, insert-if-absent, and count inserted
vs skipped.  Returns the table after the loop together with
`(inserted, skipped)`; the reported `total` is `messages.length`. -/
def import_messages (normalize : String → String) (table : List MessageRow)
    (messages : List KakaoMessage) (source : Option String) :
    List MessageRow × Nat × Nat :=
  match messages with
  | [] => (table, 0, 0)
  | msg :: rest =>
      let dtMin := _dt_minute msg.dt
      let norm := normalize msg.text
      let key := _dedup_key dtMin norm
      let row : MessageRow :=
        ⟨msg.dt, dtMin, msg.sender, msg.text, norm, key, source⟩
      let step := insertOrIgnore table row
      let recur := import_messages normalize step.1 rest source
      if step.2 then (recur.1, recur.2.1 + 1, recur.2.2)
      else (recur.1, recur.2.1, recur.2.2 + 1)

/-- The dedup key `import_messages` computes for a message. -/
def msgKey (normalize : String → String) (m : KakaoMessage) : DedupKey :=
  _dedup_key (_dt_minute m.dt) (normalize m.text)

/-- The dedup keys present in a table. -/
def rowKeys (table : List MessageRow) : List DedupKey :=
  table.map (fun r => r.dedup_key)

/-- The row `import_messages` inserts for a message. -/
def rowOfMsg (normalize : String → String) (source : Option String)
    (m : KakaoMessage) : MessageRow :=
  ⟨m.dt, _dt_minute m.dt, m.sender, m.text, normalize m.text,
    msgKey normalize m, source⟩

/-! ### `normalize_db_senders_and_dedup` (src/storage.py lines 264-324) -/

/-- One row as the rebuild pass reads it:
`SELECT dt, sender, text, source FROM messages ORDER BY dt ASC, id ASC`. -/
structure DbRow where
  dt : PyDateTime
  sender : String
  text : String
  source : Option String
deriving DecidableEq

/-- The dedup key the rebuild pass recomputes for a row
(`_dedup_key(_dt_minute(fromisoformat(dt)), normalize(text))`). -/
def rowKeyOf (normalize : String → String) (r : DbRow) : DedupKey :=
  _dedup_key (_dt_minute r.dt) (normalize r.text)

/-- The row inserted into `messages_new`: same `dt`, `text`, `source`,
canonicalized sender. -/
def canonRow (me other : String) (r : DbRow) : DbRow :=
  ⟨r.dt, _canonicalize_sender r.sender me other, r.text, r.source⟩

/-- The row loop of `normalize_db_senders_and_dedup` (src/storage.py lines
297-316): `keys` is the set of dedup keys already inserted into
`messages_new` (the UNIQUE constraint that makes `INSERT OR IGNORE` skip);
returns the new table in insertion order together with `(kept, dropped)`. -/
def rebuildGo (normalize : String → String) (me other : String) :
    List DbRow → List DedupKey → List DbRow × Nat × Nat
  | [], _ => ([], 0, 0)
  | r :: rest, keys =>
      let key := rowKeyOf normalize r
      if key ∈ keys then
        let recur := rebuildGo normalize me other rest keys
        (recur.1, recur.2.1, recur.2.2 + 1)
      else
        let recur := rebuildGo normalize me other rest (key :: keys)
        (canonRow me other r :: recur.1, recur.2.1 + 1, recur.2.2)

/-- `normalize_db_senders_and_dedup(db_path, me_sender, other_sender)`
(src/storage.py lines 264-324): rebuild the whole table, keeping the first
occurrence of each dedup key, canonicalizing every sender, then swap the
fresh table in.  The argument list is the table in the fetch order
`ORDER BY dt ASC, id ASC`; because rows are processed in that order and the
fresh table assigns ids in insertion order, the returned list is the swapped
table in the same fetch order a second run would read.  The source reports
`{"kept": kept, "dropped": dropped, "total": kept + dropped}`. -/
def normalize_db_senders_and_dedup (normalize : String → String)
    (me_sender other_sender : String) (rows : List DbRow) :
    List DbRow × Nat × Nat :=
  rebuildGo normalize me_sender other_sender rows []

/-! ### The backup sync engine (src/backup.py lines 109-609) -/

/-- `GitHubBackupConfig` (src/backup.py lines 109-114); `prefixPath` is the
source's `prefix` field. -/
structure GitHubBackupConfig where
  token : String
  repo : String
  branch : String
  prefixPath : String
deriving DecidableEq

/-- `_compute_backup_signature(cfg, chat_plain, diary_plain)` (src/backup.py
lines 508-523): SHA-256 over repo, branch, prefix, chat text and diary text,
NUL-separated.  The hex digest is modelled as an injective rendering of the
exact hasher input, wrapped in the non-whitespace markers `sha256(`/`)` so
that — like a hex digest — it is invariant under `str.strip()`. -/
def _compute_backup_signature (cfg : GitHubBackupConfig)
    (chat_plain diary_plain : String) : String :=
  "sha256(" ++ cfg.repo ++ "\x00" ++ cfg.branch ++ "\x00" ++ cfg.prefixPath
    ++ "\x00" ++ chat_plain ++ "\x00" ++ diary_plain ++ ")"

/-- The persisted local state file (src/backup.py lines 454-485): an
arbitrary JSON dict, represented by what the engine extracts from it —
`_as_int(state.get("chat_count"))`, `_as_int(state.get("diary_count"))`
(`none` = key absent or not parseable as an integer, src/backup.py lines
488-492) and `str(state.get("signature") or "")`. -/
structure BackupStateFile where
  chat_count : Option Int
  diary_count : Option Int
  signature : String
deriving DecidableEq

/-- `_should_skip_backup_on_decrease(state, chat_count, diary_count)`
(src/backup.py lines 495-505): `False` unless both baseline counts parse;
otherwise `True` exactly when either current count is below its baseline. -/
def _should_skip_backup_on_decrease (state : BackupStateFile)
    (chat_count diary_count : Int) : Bool :=
  match state.chat_count, state.diary_count with
  | some prev_chat, some prev_diary =>
      chat_count < prev_chat || diary_count < prev_diary
  | _, _ => false

/-- The decision a single `maybe_backup_to_github` attempt reaches. -/
inductive SyncDecision
  | blocked
  | noop
  | uploaded
deriving DecidableEq

/-- Observable outcome of one `maybe_backup_to_github` attempt: the boolean
the function returns, the decision taken, the persisted state file after
the attempt, and the number of remote read and write calls performed. -/
structure SyncResult where
  returned : Bool
  decision : SyncDecision
  persisted : BackupStateFile
  remoteReads : Nat
  remoteWrites : Nat
deriving DecidableEq

/-- Number of `_github_put_file` calls `_upload_chat_backup` performs
(src/backup.py lines 299-315): one for a payload within the chunk limit,
otherwise one per chunk plus one for the manifest. -/
def _upload_chat_backup_writes (chunkBytes : Int) (chat_plain : String) : Nat :=
  if (utf8Len chat_plain.data : Int) ≤ chunkBytes then 1
  else (_split_text_chunks_by_bytes chat_plain.data chunkBytes).length + 1

/-- `maybe_backup_to_github(db_path, base_dir, logger, force)` (src/backup.py
lines 539-609) after `Exporting`: the exported texts, their row counts and
the config are inputs (the export step is a deterministic read of the
database); `state` is the parsed persisted state file, `lastSignature` the
in-process `_LAST_BACKUP_SIGNATURE` cache, and `remoteCounts` what
`_read_latest_remote_counts` would deliver (src/backup.py lines 419-446:
`none` components when the commit list or the `(chat N, diary M)`
annotation is missing).  The attempt first recovers missing baseline
counts from the remote (one read), then applies the decrease guard (unless
forced), then the signature no-op check, and only then uploads and persists
the new state.  Exceptions and network failures are not modelled: this is
the attempt on its success path. -/
def maybe_backup_to_github (cfg : GitHubBackupConfig) (chunkBytes : Int)
    (chat_plain diary_plain : String) (chat_count diary_count : Int)
    (state : BackupStateFile) (lastSignature : Option String)
    (remoteCounts : Option Int × Option Int) (force : Bool) : SyncResult :=
  let signature := _compute_backup_signature cfg chat_plain diary_plain
  let recovered :=
    if state.chat_count.isNone || state.diary_count.isNone then
      match remoteCounts with
      | (some remote_chat, some remote_diary) =>
          ({ state with chat_count := some remote_chat,
                        diary_count := some remote_diary }, 1)
      | _ => (state, 1)
    else (state, 0)
  let state1 := recovered.1
  let reads := recovered.2
  if force = false ∧ _should_skip_backup_on_decrease state1 chat_count diary_count then
    { returned := false, decision := .blocked, persisted := state,
      remoteReads := reads, remoteWrites := 0 }
  else
    let state_signature := pyStripStr state1.signature
    if lastSignature = some signature ∨ state_signature = signature then
      { returned := false, decision := .noop, persisted := state,
        remoteReads := reads, remoteWrites := 0 }
    else
      { returned := true, decision := .uploaded,
        persisted := { chat_count := some chat_count,
                       diary_count := some diary_count,
                       signature := signature },
        remoteReads := reads,
        remoteWrites := _upload_chat_backup_writes chunkBytes chat_plain + 1 }

/-! ### `_get_periodic_backup_interval_seconds` and
`start_periodic_github_backup` (src/backup.py lines 526-536 and 612-656) -/

/-- The environment value `CHAT_APP_GITHUB_BACKUP_INTERVAL_MINUTES`, by the
outcome of the source's parse: empty/absent after `strip` (`unset`), a
`float()` `ValueError` (`invalid`), or a parsed number of minutes.  The
parsed value is modelled in `ℚ`: every comparison and product the source
performs on it (`<= 0`, `max` with `60.0`, `* 60.0`) is exact in binary
floating point for the magnitudes involved, so `ℚ` arithmetic agrees. -/
inductive IntervalEnv
  | unset
  | invalid
  | minutes (m : ℚ)

/-- `_get_periodic_backup_interval_seconds()` (src/backup.py lines
526-536): 43200 seconds (12 h) when unset, 0 when invalid or non-positive
(scheduling disabled), otherwise `max(60.0, minutes * 60.0)`. -/
def _get_periodic_backup_interval_seconds : IntervalEnv → ℚ
  | .unset => 43200
  | .invalid => 0
  | .minutes m => if m ≤ 0 then 0 else max 60 (m * 60)

/-- `start_periodic_github_backup(db_path, base_dir, logger)` (src/backup.py
lines 612-656), as the pair (returned boolean, whether a new background
loop thread is started): a non-positive interval or a missing config
returns `False` without starting anything; an already-started flag returns
`True` without starting a second loop. -/
def start_periodic_github_backup (env : IntervalEnv)
    (cfg : Option GitHubBackupConfig) (alreadyStarted : Bool) : Bool × Bool :=
  let interval_seconds := _get_periodic_backup_interval_seconds env
  if interval_seconds ≤ 0 then (false, false)
  else
    match cfg with
    | none => (false, false)
    | some _ => if alreadyStarted then (true, false) else (true, true)

/-! ### `_parse_chat_parts_manifest` and `_download_chat_backup`
(src/backup.py lines 122, 277-296, 328-342) -/

/-- A Python value as produced by `json.loads`: `None`, booleans, numbers
(manifest bodies only ever carry integers; `str()` of an `int` matches
`toString`), strings, lists and dicts. -/
inductive PyJson
  | null
  | bool (b : Bool)
  | num (n : Int)
  | str (s : String)
  | arr (items : List PyJson)
  | obj (fields : List (String × PyJson))

/-- Python truthiness of a JSON value (`item or ""` replaces falsy items
with the empty string). -/
def pyTruthy : PyJson → Bool
  | .null => false
  | .bool b => b
  | .num n => n != 0
  | .str s => s != ""
  | .arr items => !items.isEmpty
  | .obj fields => !fields.isEmpty

/-- Python `str(item)` for a JSON value.  Manifest part entries are strings
in every manifest the uploader writes; the renderings of nested lists and
dicts are placeholders (no claim depends on them — they only have to be
deterministic). -/
def pyStrOfJson : PyJson → String
  | .null => "None"
  | .bool true => "True"
  | .bool false => "False"
  | .num n => toString n
  | .str s => s
  | .arr _ => "[json list]"
  | .obj _ => "[json dict]"

/-- Python `dict.get(key)` on a dict built by `json.loads`: with duplicate
keys the last occurrence wins. -/
def jsonGet (fields : List (String × PyJson)) (key : String) : Option PyJson :=
  match fields.reverse.find? (fun kv => kv.1 == key) with
  | some kv => some kv.2
  | none => none

/-- Remove the trailing line boundary (`"\r\n"` or a single break
character) from a line, turning `splitlines(keepends=True)` output into
`splitlines()` output. -/
def dropLineEnd (l : List Char) : List Char :=
  match l.reverse with
  | '\n' :: '\r' :: rest => rest.reverse
  | c :: rest => if isPyLineBreak c then rest.reverse else l
  | [] => l

/-- Python `text.splitlines()` (no keepends). -/
def pySplitlines (text : List Char) : List (List Char) :=
  (pySplitlinesKeep text).map dropLineEnd

/-- Python `text.splitlines()` on a string. -/
def pySplitlinesStr (s : String) : List String :=
  (pySplitlines s.data).map (fun l => ⟨l⟩)

/-- Python `s.lstrip("/")`. -/
def pyLstripSlash (s : String) : String :=
  ⟨s.data.dropWhile (fun c => c = '/')⟩

/-- `_CHAT_PARTS_HEADER` (src/backup.py line 122). -/
def _CHAT_PARTS_HEADER : String := "# CHAT_BACKUP_PARTS v1"

/-- What `_parse_chat_parts_manifest` does with the canonical file's text:
returns `None` (`notManifest`), raises (`raised` — `payload.get` on a
non-dict JSON body is an uncaught `AttributeError`), or yields the ordered
part paths. -/
inductive ManifestResult
  | raised
  | notManifest
  | manifest (parts : List String)
deriving DecidableEq

/-- `_parse_chat_parts_manifest(text)` (src/backup.py lines 277-296), with
`json.loads` passed in as `jsonLoads` (`none` models `json.JSONDecodeError`,
which the source catches and converts to `None`).  Returns `None` unless
the first line strips to the header, the joined remaining lines strip to a
non-empty body, the body decodes, the decoded dict has a non-empty list
under `"parts"`, and at least one entry is non-empty after
`str(item or "").strip().lstrip("/")`. -/
def _parse_chat_parts_manifest (jsonLoads : String → Option PyJson)
    (text : String) : ManifestResult :=
  match pySplitlinesStr text with
  | [] => .notManifest
  | first :: rest =>
      if pyStripStr first ≠ _CHAT_PARTS_HEADER then .notManifest
      else
        let body := pyStripStr (String.intercalate "\n" rest)
        if body = "" then .notManifest
        else
          match jsonLoads body with
          | none => .notManifest
          | some (.obj fields) =>
              match jsonGet fields "parts" with
              | some (.arr raw_parts) =>
                  if raw_parts.isEmpty then .notManifest
                  else
                    let parts := raw_parts.filterMap (fun item =>
                      let path := pyLstripSlash (pyStripStr
                        (if pyTruthy item then pyStrOfJson item else ""))
                      if path = "" then none else some path)
                    if parts.isEmpty then .notManifest else .manifest parts
              | _ => .notManifest
          | some _ => .raised

/-- Outcome of `_download_chat_backup`: `None` (`notFound`), the payload
text, or an uncaught exception (which `fetch_backup_texts_from_github`
catches, returning no data for the cycle). -/
inductive DownloadResult
  | raised
  | notFound
  | content (text : String)
deriving DecidableEq

/-- Fetch every part path in listed order; any missing part aborts the
whole read (src/backup.py lines 336-341). -/
def fetchParts (files : String → Option String) : List String → Option (List String)
  | [] => some []
  | p :: rest =>
      match files p with
      | none => none
      | some t =>
          match fetchParts files rest with
          | none => none
          | some ts => some (t :: ts)

/-- `_download_chat_backup(cfg, prefix)` (src/backup.py lines 328-342):
read the canonical path (the remote store is `files : path → content`,
modelling `_github_get_file_text` at a fixed ref); if the content parses
as a manifest, fetch and concatenate the parts, otherwise return the
content verbatim. -/
def _download_chat_backup (files : String → Option String)
    (jsonLoads : String → Option PyJson) (prefixPath : String) : DownloadResult :=
  match files (prefixPath ++ ".txt") with
  | none => .notFound
  | some raw =>
      match _parse_chat_parts_manifest jsonLoads raw with
      | .raised => .raised
      | .notManifest => .content raw
      | .manifest part_paths =>
          match fetchParts files part_paths with
          | none => .notFound
          | some parts => .content (String.join parts)

/-! ### Theorems -/

theorem utf8Size_le_four (c : Char) : utf8Size c ≤ 4 := by
  unfold utf8Size
  split <;> [skip; split <;> [skip; split]] <;> omega

theorem utf8Len_append (a b : List Char) : utf8Len (a ++ b) = utf8Len a + utf8Len b := by
  simp [utf8Len]

theorem pySplitlinesKeepGo_flatten (s acc : List Char) :
    (pySplitlinesKeepGo s acc).flatten = acc.reverse ++ s := by
  induction s, acc using pySplitlinesKeepGo.induct with
  | case1 acc h => simp_all [pySplitlinesKeepGo, List.isEmpty_iff]
  | case2 acc h => simp_all [pySplitlinesKeepGo, List.isEmpty_iff]
  | case3 rest acc ih => simp [pySplitlinesKeepGo, ih]
  | case4 c rest acc hne h ih => simp_all [pySplitlinesKeepGo]
  | case5 c rest acc hne h ih => simp_all [pySplitlinesKeepGo]

theorem pySplitlinesKeep_flatten (text : List Char) :
    (pySplitlinesKeep text).flatten = text := by
  simp [pySplitlinesKeep, pySplitlinesKeepGo_flatten]

theorem flushCurrent_currentLines (st : SplitState) :
    (flushCurrent st).currentLines = [] := by
  unfold flushCurrent
  split <;> simp_all [List.isEmpty_iff]

theorem flushCurrent_chunks_flatten (st : SplitState) :
    (flushCurrent st).chunks.flatten = st.chunks.flatten ++ st.currentLines.flatten := by
  unfold flushCurrent
  split <;> simp_all [List.isEmpty_iff]

theorem appendLongLineSegmentsGo_flatten (maxBytes : Int) (l : List Char)
    (chunks : List (List Char)) (seg : List Char) (segSize : Nat) :
    (appendLongLineSegmentsGo maxBytes l chunks seg segSize).flatten
      = chunks.flatten ++ seg ++ l := by
  induction l generalizing chunks seg segSize with
  | nil =>
      unfold appendLongLineSegmentsGo
      split <;> simp_all [List.isEmpty_iff]
  | cons ch rest ih =>
      unfold appendLongLineSegmentsGo
      split <;> simp [ih]

theorem appendLongLineSegments_flatten (maxBytes : Int) (line : List Char)
    (chunks : List (List Char)) :
    (appendLongLineSegments maxBytes line chunks).flatten = chunks.flatten ++ line := by
  simp [appendLongLineSegments, appendLongLineSegmentsGo_flatten]

theorem splitLoop_flatten (maxBytes : Int) (lines : List (List Char)) (st : SplitState) :
    (splitLoop maxBytes lines st).chunks.flatten
        ++ (splitLoop maxBytes lines st).currentLines.flatten
      = st.chunks.flatten ++ st.currentLines.flatten ++ lines.flatten := by
  induction lines generalizing st with
  | nil => simp [splitLoop]
  | cons line rest ih =>
      simp only [splitLoop]
      split
      · rw [ih]
        simp [appendLongLineSegments_flatten, flushCurrent_chunks_flatten,
              flushCurrent_currentLines]
      · split
        · rw [ih]
          simp [flushCurrent_chunks_flatten, flushCurrent_currentLines]
        · rw [ih]
          simp

theorem split_text_chunks_flatten (text : List Char) (maxBytes : Int) :
    (_split_text_chunks_by_bytes text maxBytes).flatten = text := by
  unfold _split_text_chunks_by_bytes
  split
  · simp
  · split
    · simp_all [List.isEmpty_iff]
    · have h := splitLoop_flatten maxBytes (pySplitlinesKeep text) ⟨[], [], 0⟩
      have hchunks :
          (flushCurrent (splitLoop maxBytes (pySplitlinesKeep text) ⟨[], [], 0⟩)).chunks.flatten
            = text := by
        rw [flushCurrent_chunks_flatten]
        simpa [pySplitlinesKeep_flatten] using h
      dsimp only
      split
      · simp_all [List.isEmpty_iff]
      · simpa using hchunks

/-- C1: for every payload and every byte limit of at least 20000 (the floor
that `_get_chat_chunk_bytes` guarantees), concatenating in order the chunks
returned by `_split_text_chunks_by_bytes` reproduces the payload exactly,
and the empty payload yields exactly one empty chunk, never zero chunks. -/
theorem c1_split_concat_reproduces_payload (text : List Char) (maxBytes : Int)
    (h : 20000 ≤ maxBytes) :
    (_split_text_chunks_by_bytes text maxBytes).flatten = text
      ∧ _split_text_chunks_by_bytes [] maxBytes = [[]] := by
  refine ⟨split_text_chunks_flatten text maxBytes, ?_⟩
  unfold _split_text_chunks_by_bytes
  split <;> simp

/-- Witness for C1 at a concrete payload and limit. -/
theorem c1_split_concat_witness :
    (20000 : Int) ≤ 20000
      ∧ ((_split_text_chunks_by_bytes ("ab\ncd".data) 20000).flatten = "ab\ncd".data
          ∧ _split_text_chunks_by_bytes [] 20000 = [[]]) :=
  ⟨by norm_num, c1_split_concat_reproduces_payload ("ab\ncd".data) 20000 (by norm_num)⟩

theorem appendLongLineSegmentsGo_bound (maxBytes : Int) (hmax : 4 ≤ maxBytes)
    (l : List Char) (chunks : List (List Char)) (seg : List Char) (segSize : Nat)
    (hseg : utf8Len seg = segSize) (hsz : (segSize : Int) ≤ maxBytes)
    (hch : ∀ c ∈ chunks, (utf8Len c : Int) ≤ maxBytes) :
    ∀ c ∈ appendLongLineSegmentsGo maxBytes l chunks seg segSize,
      (utf8Len c : Int) ≤ maxBytes := by
  induction l generalizing chunks seg segSize with
  | nil =>
      intro c hc
      unfold appendLongLineSegmentsGo at hc
      split at hc
      · exact hch c hc
      · rcases List.mem_append.mp hc with h | h
        · exact hch c h
        · simp only [List.mem_singleton] at h
          subst h
          rw [hseg]
          exact hsz
  | cons ch rest ih =>
      intro c hc
      unfold appendLongLineSegmentsGo at hc
      split at hc
      · refine ih (chunks ++ [seg]) [ch] (utf8Size ch) (by simp [utf8Len]) ?_ ?_ c hc
        · have := utf8Size_le_four ch
          omega
        · intro d hd
          rcases List.mem_append.mp hd with h | h
          · exact hch d h
          · simp only [List.mem_singleton] at h
            subst h
            rw [hseg]
            exact hsz
      · rename_i hcond
        refine ih chunks (seg ++ [ch]) (segSize + utf8Size ch)
          (by rw [utf8Len_append, hseg]; simp [utf8Len]) ?_ hch c hc
        rcases Decidable.not_and_iff_or_not.mp hcond with h | h
        · have hnil : seg = [] := by simpa using h
          subst hnil
          simp [utf8Len] at hseg
          have := utf8Size_le_four ch
          omega
        · omega

theorem flushCurrent_bounded (maxBytes : Int) (hmax : 0 ≤ maxBytes) (st : SplitState)
    (h : ChunksBounded maxBytes st) : ChunksBounded maxBytes (flushCurrent st) := by
  obtain ⟨h1, h2, h3⟩ := h
  unfold flushCurrent
  split
  · exact ⟨h1, h2, h3⟩
  · refine ⟨?_, by simp [utf8Len], by simpa using hmax⟩
    intro c hc
    rcases List.mem_append.mp hc with h | h
    · exact h1 c h
    · simp only [List.mem_singleton] at h
      subst h
      rw [h2]
      exact h3

theorem flushCurrent_currentSize (maxBytes : Int) (st : SplitState)
    (h : ChunksBounded maxBytes st) : (flushCurrent st).currentSize = 0 := by
  have h2 := (flushCurrent_bounded maxBytes (by
    rcases h with ⟨-, -, h3⟩
    have := Int.natCast_nonneg st.currentSize
    omega) st h).2.1
  rw [flushCurrent_currentLines] at h2
  simpa [utf8Len] using h2.symm

theorem splitLoop_bounded (maxBytes : Int) (hmax : 4 ≤ maxBytes)
    (lines : List (List Char)) (st : SplitState)
    (h : ChunksBounded maxBytes st) :
    ChunksBounded maxBytes (splitLoop maxBytes lines st) := by
  induction lines generalizing st with
  | nil => simpa [splitLoop] using h
  | cons line rest ih =>
      simp only [splitLoop]
      split
      · rename_i hline
        apply ih
        have hf := flushCurrent_bounded maxBytes (by omega) st h
        refine ⟨?_, hf.2.1, hf.2.2⟩
        intro c hc
        simp only [appendLongLineSegments] at hc
        exact appendLongLineSegmentsGo_bound maxBytes hmax line
          (flushCurrent st).chunks [] 0 (by simp [utf8Len]) (by omega) hf.1 c hc
      · rename_i hline
        split
        · rename_i hcond
          apply ih
          have hf := flushCurrent_bounded maxBytes (by omega) st h
          have hz := flushCurrent_currentSize maxBytes st h
          refine ⟨hf.1, ?_, ?_⟩
          · simp only [List.flatten_append, utf8Len_append]
            rw [hf.2.1]
            simp [utf8Len]
          · rw [hz]
            simp only [Nat.zero_add]
            omega
        · rename_i hcond
          apply ih
          obtain ⟨h1, h2, h3⟩ := h
          refine ⟨h1, ?_, ?_⟩
          · simp only [List.flatten_append, utf8Len_append]
            rw [h2]
            simp [utf8Len]
          · rcases Decidable.not_and_iff_or_not.mp hcond with hnil | hle
            · have hnil' : st.currentLines = [] := by simpa using hnil
              rw [hnil'] at h2
              simp [utf8Len] at h2
              push_cast
              omega
            · push_cast
              omega

/-- C9: with a byte limit of at least 20000 (as `_get_chat_chunk_bytes`
guarantees), every chunk produced by `_split_text_chunks_by_bytes` has
UTF-8 byte length at most the limit.  Because every code point encodes to
at most 4 bytes, the claim's escape clause (a chunk exceeding the limit
because one code point alone does) can never fire at this limit; and since
the embedding operates on sequences of whole code points — exactly as the
Python `str` operations in the source do — no chunk boundary can fall
inside the encoding of a multi-byte code point. -/
theorem c9_chunk_sizes_bounded (text : List Char) (maxBytes : Int)
    (h : 20000 ≤ maxBytes) :
    ∀ chunk ∈ _split_text_chunks_by_bytes text maxBytes,
      (utf8Len chunk : Int) ≤ maxBytes := by
  intro chunk hc
  unfold _split_text_chunks_by_bytes at hc
  split at hc
  · omega
  · split at hc
    · simp only [List.mem_singleton] at hc
      subst hc
      simp [utf8Len]
      omega
    · dsimp only at hc
      have hb : ChunksBounded maxBytes (splitLoop maxBytes (pySplitlinesKeep text) ⟨[], [], 0⟩) := by
        refine splitLoop_bounded maxBytes (by omega) _ _ ⟨?_, by simp [utf8Len], by
          push_cast
          omega⟩
        intro c hcm
        simp at hcm
      have hfb := flushCurrent_bounded maxBytes (by omega) _ hb
      split at hc
      · simp only [List.mem_singleton] at hc
        subst hc
        simp [utf8Len]
        omega
      · exact hfb.1 chunk hc

/-- Witness for C9 at a concrete payload, limit and chunk. -/
theorem c9_chunk_sizes_witness :
    (20000 : Int) ≤ 20000
      ∧ "a".data ∈ _split_text_chunks_by_bytes "a".data 20000
      ∧ (utf8Len "a".data : Int) ≤ 20000 :=
  ⟨by norm_num, by decide,
    c9_chunk_sizes_bounded "a".data 20000 (by norm_num) "a".data (by decide)⟩

/-- C7 counterexample: the raw sender `"a "` is not an exact match of the
label `"a"`, yet `_canonicalize_sender` returns the me-label for it (the
source strips the raw value before comparing), so with distinct labels
`"a"`/`"b"` the claim's "returns otherLabel for every other input" fails. -/
theorem c7_canonicalize_counterexample :
    _canonicalize_sender "a " "a" "b" = "a"
      ∧ "a " ≠ "a"
      ∧ "a" ≠ "b" := by
  refine ⟨?_, by decide, by decide⟩
  decide

/-- C7 amended: for distinct labels, `_canonicalize_sender` returns the
me-label exactly when the whitespace-stripped raw sender equals the
me-label (not when the raw sender matches it exactly), returns the
other-label for every other input, and always returns one of the two
labels. -/
theorem c7_canonicalize_sender_amended (raw me other : String) (hne : me ≠ other) :
    (_canonicalize_sender raw me other = me ↔ pyStripStr raw = me)
      ∧ (_canonicalize_sender raw me other = me
          ∨ _canonicalize_sender raw me other = other) := by
  unfold _canonicalize_sender
  by_cases h : pyStripStr raw = me <;> simp [h, hne]
  exact fun h2 => (hne h2.symm).elim

/-- Witness for C7 at concrete labels and a raw sender. -/
theorem c7_canonicalize_sender_witness :
    ("이성준" : String) ≠ "귀여운소연이"
      ∧ ((_canonicalize_sender " 이성준 " "이성준" "귀여운소연이" = "이성준"
            ↔ pyStripStr " 이성준 " = "이성준")
          ∧ (_canonicalize_sender " 이성준 " "이성준" "귀여운소연이" = "이성준"
              ∨ _canonicalize_sender " 이성준 " "이성준" "귀여운소연이" = "귀여운소연이")) :=
  ⟨by decide, c7_canonicalize_sender_amended " 이성준 " "이성준" "귀여운소연이" (by decide)⟩

theorem rowKeys_any (table : List MessageRow) (k : DedupKey) :
    (table.any fun r => r.dedup_key = k) = true ↔ k ∈ rowKeys table := by
  simp only [rowKeys, List.any_eq_true, decide_eq_true_eq, List.mem_map]

theorem rowKeys_append (a b : List MessageRow) :
    rowKeys (a ++ b) = rowKeys a ++ rowKeys b := by
  simp [rowKeys]

theorem rowKeys_map_rowOfMsg (normalize : String → String) (source : Option String)
    (msgs : List KakaoMessage) :
    rowKeys (msgs.map (rowOfMsg normalize source)) = msgs.map (msgKey normalize) := by
  unfold rowKeys
  rw [List.map_map]
  rfl

theorem import_messages_fresh (normalize : String → String)
    (table : List MessageRow) (msgs : List KakaoMessage) (source : Option String)
    (hnodup : (msgs.map (msgKey normalize)).Nodup)
    (hfresh : ∀ m ∈ msgs, msgKey normalize m ∉ rowKeys table) :
    import_messages normalize table msgs source
      = (table ++ msgs.map (rowOfMsg normalize source), msgs.length, 0) := by
  induction msgs generalizing table with
  | nil => simp [import_messages]
  | cons m rest ih =>
      have hkey : msgKey normalize m ∉ rowKeys table :=
        hfresh m (List.mem_cons_self m rest)
      have hany : (table.any fun r => r.dedup_key = msgKey normalize m) = false := by
        rw [Bool.eq_false_iff]
        intro hcontra
        exact hkey ((rowKeys_any table (msgKey normalize m)).mp hcontra)
      have hcons : (msgKey normalize m :: rest.map (msgKey normalize)).Nodup := by
        rw [List.map_cons] at hnodup
        exact hnodup
      have hnotmem := (List.nodup_cons.mp hcons).1
      have hnodup2 := (List.nodup_cons.mp hcons).2
      have hne : ∀ m2 ∈ rest, msgKey normalize m2 ≠ msgKey normalize m := by
        intro m2 hm2 heq
        exact hnotmem (heq ▸ List.mem_map_of_mem (msgKey normalize) hm2)
      have hfresh2 : ∀ m2 ∈ rest,
          msgKey normalize m2 ∉ rowKeys (table ++ [rowOfMsg normalize source m]) := by
        intro m2 hm2
        rw [rowKeys_append]
        intro hmem
        rcases List.mem_append.mp hmem with hmem | hmem
        · exact hfresh m2 (List.mem_cons_of_mem m hm2) hmem
        · simp [rowKeys, rowOfMsg] at hmem
          exact hne m2 hm2 hmem
      have hfresh3 : ∀ m2 ∈ rest, msgKey normalize m2 ∉
          rowKeys (table ++ [⟨m.dt, _dt_minute m.dt, m.sender, m.text, normalize m.text, _dedup_key (_dt_minute m.dt) (normalize m.text), source⟩]) :=
        hfresh2
      simp only [import_messages, insertOrIgnore]
      rw [show (table.any fun r => r.dedup_key = _dedup_key (_dt_minute m.dt) (normalize m.text)) = false from hany]
      simp only [Bool.false_eq_true, if_false]
      rw [ih _ hnodup2 hfresh3]
      simp [rowOfMsg, msgKey, List.append_assoc]

theorem import_messages_allPresent (normalize : String → String)
    (table : List MessageRow) (msgs : List KakaoMessage) (source : Option String)
    (hmem : ∀ m ∈ msgs, msgKey normalize m ∈ rowKeys table) :
    import_messages normalize table msgs source = (table, 0, msgs.length) := by
  induction msgs with
  | nil => simp [import_messages]
  | cons m rest ih =>
      have hany : (table.any fun r => r.dedup_key = msgKey normalize m) = true :=
        (rowKeys_any table (msgKey normalize m)).mpr (hmem m (List.mem_cons_self m rest))
      have hrec := ih (fun m2 hm2 => hmem m2 (List.mem_cons_of_mem m hm2))
      simp only [import_messages, insertOrIgnore]
      rw [show (table.any fun r => r.dedup_key = _dedup_key (_dt_minute m.dt) (normalize m.text)) = true from hany]
      simp [hrec]

/-- C3: for messages whose dedup keys are pairwise distinct and absent
from the store, the first `import_messages` run reports
`inserted == N, skipped == 0`, re-running the identical list reports
`inserted == 0, skipped == N`, and the second run leaves the table exactly
as the first run left it (no row is ever duplicated; `inserted` counts only
genuinely new keys). -/
theorem c3_import_messages_idempotent (normalize : String → String)
    (table : List MessageRow) (msgs : List KakaoMessage) (source : Option String)
    (hnodup : (msgs.map (msgKey normalize)).Nodup)
    (hfresh : ∀ m ∈ msgs, msgKey normalize m ∉ rowKeys table) :
    (import_messages normalize table msgs source).2.1 = msgs.length
      ∧ (import_messages normalize table msgs source).2.2 = 0
      ∧ (import_messages normalize
          (import_messages normalize table msgs source).1 msgs source).2.1 = 0
      ∧ (import_messages normalize
          (import_messages normalize table msgs source).1 msgs source).2.2 = msgs.length
      ∧ (import_messages normalize
          (import_messages normalize table msgs source).1 msgs source).1
        = (import_messages normalize table msgs source).1 := by
  have h1 := import_messages_fresh normalize table msgs source hnodup hfresh
  have hmem : ∀ m ∈ msgs,
      msgKey normalize m ∈ rowKeys (import_messages normalize table msgs source).1 := by
    intro m hm
    rw [h1]
    rw [rowKeys_append, rowKeys_map_rowOfMsg]
    exact List.mem_append.mpr (Or.inr (List.mem_map_of_mem (msgKey normalize) hm))
  have h2 := import_messages_allPresent normalize
    (import_messages normalize table msgs source).1 msgs source hmem
  refine ⟨by rw [h1], by rw [h1], by rw [h2], by rw [h2], by rw [h2]⟩

/-- Witness for C3 on two fresh messages with distinct keys. -/
theorem c3_import_messages_witness :
    ([⟨⟨2024, 1, 1, 0, 0, 0⟩, "a", "x"⟩,
      (⟨⟨2024, 1, 1, 0, 1, 0⟩, "b", "y"⟩ : KakaoMessage)].map
        (msgKey (fun t => t))).Nodup
      ∧ ((import_messages (fun t => t) []
            [⟨⟨2024, 1, 1, 0, 0, 0⟩, "a", "x"⟩, ⟨⟨2024, 1, 1, 0, 1, 0⟩, "b", "y"⟩]
            none).2.1 = 2
          ∧ (import_messages (fun t => t) []
              [⟨⟨2024, 1, 1, 0, 0, 0⟩, "a", "x"⟩, ⟨⟨2024, 1, 1, 0, 1, 0⟩, "b", "y"⟩]
              none).2.2 = 0
          ∧ (import_messages (fun t => t)
              (import_messages (fun t => t) []
                [⟨⟨2024, 1, 1, 0, 0, 0⟩, "a", "x"⟩, ⟨⟨2024, 1, 1, 0, 1, 0⟩, "b", "y"⟩]
                none).1
              [⟨⟨2024, 1, 1, 0, 0, 0⟩, "a", "x"⟩, ⟨⟨2024, 1, 1, 0, 1, 0⟩, "b", "y"⟩]
              none).2.1 = 0
          ∧ (import_messages (fun t => t)
              (import_messages (fun t => t) []
                [⟨⟨2024, 1, 1, 0, 0, 0⟩, "a", "x"⟩, ⟨⟨2024, 1, 1, 0, 1, 0⟩, "b", "y"⟩]
                none).1
              [⟨⟨2024, 1, 1, 0, 0, 0⟩, "a", "x"⟩, ⟨⟨2024, 1, 1, 0, 1, 0⟩, "b", "y"⟩]
              none).2.2 = 2
          ∧ (import_messages (fun t => t)
              (import_messages (fun t => t) []
                [⟨⟨2024, 1, 1, 0, 0, 0⟩, "a", "x"⟩, ⟨⟨2024, 1, 1, 0, 1, 0⟩, "b", "y"⟩]
                none).1
              [⟨⟨2024, 1, 1, 0, 0, 0⟩, "a", "x"⟩, ⟨⟨2024, 1, 1, 0, 1, 0⟩, "b", "y"⟩]
              none).1
            = (import_messages (fun t => t) []
                [⟨⟨2024, 1, 1, 0, 0, 0⟩, "a", "x"⟩, ⟨⟨2024, 1, 1, 0, 1, 0⟩, "b", "y"⟩]
                none).1) :=
  ⟨by decide,
    c3_import_messages_idempotent (fun t => t) []
      [⟨⟨2024, 1, 1, 0, 0, 0⟩, "a", "x"⟩, ⟨⟨2024, 1, 1, 0, 1, 0⟩, "b", "y"⟩]
      none (by decide) (by decide)⟩

theorem rowKeyOf_canonRow (normalize : String → String) (me other : String) (r : DbRow) :
    rowKeyOf normalize (canonRow me other r) = rowKeyOf normalize r := rfl

theorem rebuildGo_kept_length (normalize : String → String) (me other : String)
    (rows : List DbRow) (keys : List DedupKey) :
    (rebuildGo normalize me other rows keys).2.1
      = (rebuildGo normalize me other rows keys).1.length := by
  induction rows generalizing keys with
  | nil => simp [rebuildGo]
  | cons r rest ih =>
      simp only [rebuildGo]
      split
      · simpa using ih keys
      · simpa using ih (rowKeyOf normalize r :: keys)

theorem rebuildGo_output_keys (normalize : String → String) (me other : String)
    (rows : List DbRow) (keys : List DedupKey) :
    ((rebuildGo normalize me other rows keys).1.map (rowKeyOf normalize)).Nodup
      ∧ ∀ k ∈ (rebuildGo normalize me other rows keys).1.map (rowKeyOf normalize),
          k ∉ keys := by
  induction rows generalizing keys with
  | nil => simp [rebuildGo]
  | cons r rest ih =>
      simp only [rebuildGo]
      split
      · exact ih keys
      · rename_i hnew
        obtain ⟨ihnodup, ihfresh⟩ := ih (rowKeyOf normalize r :: keys)
        constructor
        · simp only [List.map_cons, List.nodup_cons]
          refine ⟨?_, ihnodup⟩
          intro hmem
          rw [rowKeyOf_canonRow] at hmem
          exact ihfresh _ hmem (List.mem_cons_self _ _)
        · intro k hk
          simp only [List.map_cons, List.mem_cons] at hk
          rcases hk with hk | hk
          · rw [hk, rowKeyOf_canonRow]
            exact hnew
          · intro hkk
            exact ihfresh k hk (List.mem_cons_of_mem _ hkk)

theorem rebuildGo_fresh (normalize : String → String) (me other : String)
    (rows : List DbRow) (keys : List DedupKey)
    (hnodup : (rows.map (rowKeyOf normalize)).Nodup)
    (hfresh : ∀ r ∈ rows, rowKeyOf normalize r ∉ keys) :
    (rebuildGo normalize me other rows keys).2.1 = rows.length
      ∧ (rebuildGo normalize me other rows keys).2.2 = 0 := by
  induction rows generalizing keys with
  | nil => simp [rebuildGo]
  | cons r rest ih =>
      rw [List.map_cons, List.nodup_cons] at hnodup
      have hmem : rowKeyOf normalize r ∉ keys := hfresh r (List.mem_cons_self r rest)
      have hfresh2 : ∀ r2 ∈ rest, rowKeyOf normalize r2 ∉ rowKeyOf normalize r :: keys := by
        intro r2 hr2
        rw [List.mem_cons]
        rintro (heq | hkeys)
        · exact hnodup.1 (heq ▸ List.mem_map_of_mem (rowKeyOf normalize) hr2)
        · exact hfresh r2 (List.mem_cons_of_mem r hr2) hkeys
      simp only [rebuildGo]
      rw [if_neg hmem]
      have := ih (rowKeyOf normalize r :: keys) hnodup.2 hfresh2
      simp [this.1, this.2]

/-- C8 counterexample: on a table of two rows with the same minute and the
same body text, the first rebuild reports `kept = 1, dropped = 1`, so its
reported `total` is `2`; the second rebuild reports `kept = 1 ≠ 2` — the
claim's "second kept equals the first run's total" fails whenever the first
run dropped anything. -/
theorem c8_rebuild_counterexample :
    (normalize_db_senders_and_dedup (fun t => t) "a" "b"
        [⟨⟨2024, 1, 1, 0, 0, 0⟩, "x", "t", none⟩,
          ⟨⟨2024, 1, 1, 0, 0, 5⟩, "x", "t", none⟩]).2.1 = 1
      ∧ (normalize_db_senders_and_dedup (fun t => t) "a" "b"
          [⟨⟨2024, 1, 1, 0, 0, 0⟩, "x", "t", none⟩,
            ⟨⟨2024, 1, 1, 0, 0, 5⟩, "x", "t", none⟩]).2.2 = 1
      ∧ (normalize_db_senders_and_dedup (fun t => t) "a" "b"
          (normalize_db_senders_and_dedup (fun t => t) "a" "b"
            [⟨⟨2024, 1, 1, 0, 0, 0⟩, "x", "t", none⟩,
              ⟨⟨2024, 1, 1, 0, 0, 5⟩, "x", "t", none⟩]).1).2.1 = 1
      ∧ ¬((normalize_db_senders_and_dedup (fun t => t) "a" "b"
          (normalize_db_senders_and_dedup (fun t => t) "a" "b"
            [⟨⟨2024, 1, 1, 0, 0, 0⟩, "x", "t", none⟩,
              ⟨⟨2024, 1, 1, 0, 0, 5⟩, "x", "t", none⟩]).1).2.1
        = (normalize_db_senders_and_dedup (fun t => t) "a" "b"
            [⟨⟨2024, 1, 1, 0, 0, 0⟩, "x", "t", none⟩,
              ⟨⟨2024, 1, 1, 0, 0, 5⟩, "x", "t", none⟩]).2.1
          + (normalize_db_senders_and_dedup (fun t => t) "a" "b"
              [⟨⟨2024, 1, 1, 0, 0, 0⟩, "x", "t", none⟩,
                ⟨⟨2024, 1, 1, 0, 0, 5⟩, "x", "t", none⟩]).2.2) := by
  decide

/-- C8 amended: running `normalize_db_senders_and_dedup` twice in a row
with the same label arguments is idempotent in the only sense the code
realises: the second run reports `dropped == 0`, and its `kept` equals the
first run's `kept` (which equals the first run's reported `total` exactly
when the first run dropped nothing). -/
theorem c8_rebuild_idempotent_amended (normalize : String → String)
    (me other : String) (rows : List DbRow) :
    (normalize_db_senders_and_dedup normalize me other
        (normalize_db_senders_and_dedup normalize me other rows).1).2.2 = 0
      ∧ (normalize_db_senders_and_dedup normalize me other
          (normalize_db_senders_and_dedup normalize me other rows).1).2.1
        = (normalize_db_senders_and_dedup normalize me other rows).2.1 := by
  have hkeys := rebuildGo_output_keys normalize me other rows []
  have h2 := rebuildGo_fresh normalize me other
    (rebuildGo normalize me other rows []).1 [] hkeys.1 (by simp)
  have hlen := rebuildGo_kept_length normalize me other rows []
  unfold normalize_db_senders_and_dedup
  exact ⟨h2.2, by rw [h2.1, hlen]⟩

theorem pyStrip_sandwich (c d : Char) (mid : List Char)
    (hc : isPySpace c = false) (hd : isPySpace d = false) :
    pyStrip (c :: (mid ++ [d])) = c :: (mid ++ [d]) := by
  unfold pyStrip
  rw [List.dropWhile_cons]
  simp only [hc, Bool.false_eq_true, if_false]
  rw [show (c :: (mid ++ [d])).reverse = d :: (mid.reverse ++ [c]) from by simp]
  rw [List.dropWhile_cons]
  simp only [hd, Bool.false_eq_true, if_false]
  simp

theorem pyStripStr_signature (cfg : GitHubBackupConfig) (chat diary : String) :
    pyStripStr (_compute_backup_signature cfg chat diary)
      = _compute_backup_signature cfg chat diary := by
  have hsplit : ("sha256(" : String).data = 's' :: ("ha256(" : String).data := rfl
  have hclose : (")" : String).data = [')'] := rfl
  have hdata : (_compute_backup_signature cfg chat diary).data
      = 's' :: (("ha256(" ++ cfg.repo ++ "\x00" ++ cfg.branch ++ "\x00"
          ++ cfg.prefixPath ++ "\x00" ++ chat ++ "\x00" ++ diary).data ++ [')']) := by
    unfold _compute_backup_signature
    simp [String.data_append, hsplit, hclose, List.append_assoc]
  unfold pyStripStr
  rw [hdata, pyStrip_sandwich _ _ _ (by decide) (by decide), ← hdata]

/-- C2: with a persisted baseline of `chat_count = 100` (and any parsed
diary baseline) and a current live chat count of 90, an unforced sync is
blocked: no remote write happens and the persisted state file is left
unchanged.  Invoked with `force` — and with the payload signature differing
from both the persisted and the in-process cached signature, i.e. the
content really has changed — the same sync proceeds to upload. -/
theorem c2_decrease_guard_blocks_unless_forced (cfg : GitHubBackupConfig)
    (chunkBytes : Int) (chat_plain diary_plain : String) (diary_count d : Int)
    (state : BackupStateFile) (lastSignature : Option String)
    (remoteCounts : Option Int × Option Int)
    (hchat : state.chat_count = some 100)
    (hdiary : state.diary_count = some d)
    (hlast : lastSignature ≠ some (_compute_backup_signature cfg chat_plain diary_plain))
    (hsig : pyStripStr state.signature
        ≠ _compute_backup_signature cfg chat_plain diary_plain) :
    ((maybe_backup_to_github cfg chunkBytes chat_plain diary_plain 90 diary_count
        state lastSignature remoteCounts false).decision = SyncDecision.blocked
      ∧ (maybe_backup_to_github cfg chunkBytes chat_plain diary_plain 90 diary_count
          state lastSignature remoteCounts false).persisted = state
      ∧ (maybe_backup_to_github cfg chunkBytes chat_plain diary_plain 90 diary_count
          state lastSignature remoteCounts false).remoteWrites = 0)
    ∧ ((maybe_backup_to_github cfg chunkBytes chat_plain diary_plain 90 diary_count
          state lastSignature remoteCounts true).decision = SyncDecision.uploaded
      ∧ (maybe_backup_to_github cfg chunkBytes chat_plain diary_plain 90 diary_count
          state lastSignature remoteCounts true).returned = true
      ∧ 1 ≤ (maybe_backup_to_github cfg chunkBytes chat_plain diary_plain 90 diary_count
          state lastSignature remoteCounts true).remoteWrites) := by
  constructor
  · simp [maybe_backup_to_github, hchat, hdiary, _should_skip_backup_on_decrease]
  · simp [maybe_backup_to_github, hchat, hdiary, _should_skip_backup_on_decrease,
      hlast, hsig]

/-- Witness for C2 at a concrete configuration and state. -/
theorem c2_decrease_guard_witness :
    ((⟨some 100, some 0, ""⟩ : BackupStateFile).chat_count = some 100)
      ∧ (((maybe_backup_to_github ⟨"t", "o/r", "main", "backup/chat_export"⟩ 700000
            "x" "" 90 0 ⟨some 100, some 0, ""⟩ none (none, none)
            false).decision = SyncDecision.blocked
          ∧ (maybe_backup_to_github ⟨"t", "o/r", "main", "backup/chat_export"⟩ 700000
              "x" "" 90 0 ⟨some 100, some 0, ""⟩ none (none, none)
              false).persisted = ⟨some 100, some 0, ""⟩
          ∧ (maybe_backup_to_github ⟨"t", "o/r", "main", "backup/chat_export"⟩ 700000
              "x" "" 90 0 ⟨some 100, some 0, ""⟩ none (none, none)
              false).remoteWrites = 0)
        ∧ ((maybe_backup_to_github ⟨"t", "o/r", "main", "backup/chat_export"⟩ 700000
              "x" "" 90 0 ⟨some 100, some 0, ""⟩ none (none, none)
              true).decision = SyncDecision.uploaded
          ∧ (maybe_backup_to_github ⟨"t", "o/r", "main", "backup/chat_export"⟩ 700000
              "x" "" 90 0 ⟨some 100, some 0, ""⟩ none (none, none)
              true).returned = true
          ∧ 1 ≤ (maybe_backup_to_github ⟨"t", "o/r", "main", "backup/chat_export"⟩ 700000
              "x" "" 90 0 ⟨some 100, some 0, ""⟩ none (none, none)
              true).remoteWrites)) :=
  ⟨rfl,
    c2_decrease_guard_blocks_unless_forced ⟨"t", "o/r", "main", "backup/chat_export"⟩
      700000 "x" "" 0 0 ⟨some 100, some 0, ""⟩ none (none, none)
      rfl rfl (by decide) (by decide)⟩

/-- C10: when the persisted state lacks a parseable `chat_count` or
`diary_count` and the remote baseline recovery does not yield both counts,
the decrease guard never blocks: the attempt always proceeds past the
guard to the signature check — it ends in no-op or upload, never blocked,
however far the current counts have shrunk. -/
theorem c10_guard_never_blocks_without_baseline (cfg : GitHubBackupConfig)
    (chunkBytes : Int) (chat_plain diary_plain : String)
    (chat_count diary_count : Int) (state : BackupStateFile)
    (lastSignature : Option String) (remoteCounts : Option Int × Option Int)
    (force : Bool)
    (hmiss : state.chat_count = none ∨ state.diary_count = none)
    (hrem : remoteCounts.1 = none ∨ remoteCounts.2 = none) :
    (maybe_backup_to_github cfg chunkBytes chat_plain diary_plain chat_count
        diary_count state lastSignature remoteCounts force).decision
      = SyncDecision.noop
    ∨ (maybe_backup_to_github cfg chunkBytes chat_plain diary_plain chat_count
        diary_count state lastSignature remoteCounts force).decision
      = SyncDecision.uploaded := by
  obtain ⟨sc, sd, ss⟩ := state
  obtain ⟨r1, r2⟩ := remoteCounts
  simp only at hmiss hrem
  unfold maybe_backup_to_github
  rcases r1 with _ | rc <;> rcases r2 with _ | rd <;>
    rcases sc with _ | pc <;> rcases sd with _ | pd <;>
      simp_all [_should_skip_backup_on_decrease] <;>
      split <;> simp

/-- Witness for C10: no baseline in the state, no recoverable remote
counts, a drastically shrunken live count — and still not blocked. -/
theorem c10_guard_never_blocks_witness :
    ((⟨none, some 7, "s"⟩ : BackupStateFile).chat_count = none
        ∨ (⟨none, some 7, "s"⟩ : BackupStateFile).diary_count = none)
      ∧ ((maybe_backup_to_github ⟨"t", "o/r", "main", "backup/chat_export"⟩ 700000
            "x" "" 0 0 ⟨none, some 7, "s"⟩ none (none, some 5) false).decision
          = SyncDecision.noop
        ∨ (maybe_backup_to_github ⟨"t", "o/r", "main", "backup/chat_export"⟩ 700000
            "x" "" 0 0 ⟨none, some 7, "s"⟩ none (none, some 5) false).decision
          = SyncDecision.uploaded) :=
  ⟨Or.inl rfl,
    c10_guard_never_blocks_without_baseline ⟨"t", "o/r", "main", "backup/chat_export"⟩
      700000 "x" "" 0 0 ⟨none, some 7, "s"⟩ none (none, some 5) false
      (Or.inl rfl) (Or.inl rfl)⟩

/-- C4 counterexample: a persisted state whose signature equals the
computed payload signature but whose baseline counts exceed the current
counts is Blocked, not NoOp — the decrease guard runs before the signature
check, so a matching signature alone does not force a no-op. -/
theorem c4_signature_match_counterexample :
    pyStripStr (_compute_backup_signature
        ⟨"t", "o/r", "main", "backup/chat_export"⟩ "x" "")
      = _compute_backup_signature ⟨"t", "o/r", "main", "backup/chat_export"⟩ "x" ""
      ∧ (maybe_backup_to_github ⟨"t", "o/r", "main", "backup/chat_export"⟩ 700000
          "x" "" 90 0
          ⟨some 100, some 0,
            _compute_backup_signature ⟨"t", "o/r", "main", "backup/chat_export"⟩ "x" ""⟩
          none (none, none) false).decision = SyncDecision.blocked
      ∧ SyncDecision.blocked ≠ SyncDecision.noop := by
  refine ⟨pyStripStr_signature _ _ _, ?_, by decide⟩
  decide

/-- C4 amended: whenever the persisted signature (or the in-process
last-seen signature) matches the computed signature for the current
content, AND the decrease guard does not trip (both baseline counts parse
and neither exceeds its current count, or the call is forced), the attempt
is a NoOp: no remote read or write happens and the persisted state is
untouched.  In particular a second attempt right after a successful upload
of the same content — whose persisted state carries the new counts and
signature — is a NoOp with zero remote calls. -/
theorem c4_signature_noop_amended (cfg : GitHubBackupConfig) (chunkBytes : Int)
    (chat_plain diary_plain : String) (chat_count diary_count : Int)
    (state : BackupStateFile) (lastSignature lastSignature2 : Option String)
    (remoteCounts remoteCounts2 : Option Int × Option Int) (force : Bool)
    (c d : Int)
    (hc : state.chat_count = some c) (hd : state.diary_count = some d)
    (hguard : ¬(force = false
        ∧ _should_skip_backup_on_decrease state chat_count diary_count = true))
    (hmatch : lastSignature
          = some (_compute_backup_signature cfg chat_plain diary_plain)
        ∨ pyStripStr state.signature
          = _compute_backup_signature cfg chat_plain diary_plain) :
    ((maybe_backup_to_github cfg chunkBytes chat_plain diary_plain chat_count
        diary_count state lastSignature remoteCounts force).decision
        = SyncDecision.noop
      ∧ (maybe_backup_to_github cfg chunkBytes chat_plain diary_plain chat_count
          diary_count state lastSignature remoteCounts force).remoteWrites = 0
      ∧ (maybe_backup_to_github cfg chunkBytes chat_plain diary_plain chat_count
          diary_count state lastSignature remoteCounts force).remoteReads = 0
      ∧ (maybe_backup_to_github cfg chunkBytes chat_plain diary_plain chat_count
          diary_count state lastSignature remoteCounts force).persisted = state)
    ∧ ((maybe_backup_to_github cfg chunkBytes chat_plain diary_plain chat_count
          diary_count
          ⟨some chat_count, some diary_count,
            _compute_backup_signature cfg chat_plain diary_plain⟩
          lastSignature2 remoteCounts2 false).decision = SyncDecision.noop
      ∧ (maybe_backup_to_github cfg chunkBytes chat_plain diary_plain chat_count
          diary_count
          ⟨some chat_count, some diary_count,
            _compute_backup_signature cfg chat_plain diary_plain⟩
          lastSignature2 remoteCounts2 false).remoteWrites = 0
      ∧ (maybe_backup_to_github cfg chunkBytes chat_plain diary_plain chat_count
          diary_count
          ⟨some chat_count, some diary_count,
            _compute_backup_signature cfg chat_plain diary_plain⟩
          lastSignature2 remoteCounts2 false).remoteReads = 0
      ∧ (maybe_backup_to_github cfg chunkBytes chat_plain diary_plain chat_count
          diary_count
          ⟨some chat_count, some diary_count,
            _compute_backup_signature cfg chat_plain diary_plain⟩
          lastSignature2 remoteCounts2 false).persisted
        = ⟨some chat_count, some diary_count,
            _compute_backup_signature cfg chat_plain diary_plain⟩) := by
  constructor
  · unfold maybe_backup_to_github
    dsimp only
    rw [show (state.chat_count.isNone || state.diary_count.isNone) = false
        from by rw [hc, hd]; rfl]
    simp only [Bool.false_eq_true, if_false]
    rw [if_neg hguard, if_pos hmatch]
    simp
  · unfold maybe_backup_to_github
    dsimp only
    simp only [Option.isNone_some, Bool.or_self, Bool.false_eq_true, if_false]
    rw [if_neg ?hg, if_pos ?hm]
    case hg =>
      simp [_should_skip_backup_on_decrease]
    case hm =>
      exact Or.inr (pyStripStr_signature cfg chat_plain diary_plain)
    simp

/-- Witness for the amended C4 at a concrete configuration: matching
persisted signature, equal counts, unforced — a NoOp with zero remote
calls, for the first and for a repeated attempt. -/
theorem c4_signature_noop_witness :
    ¬((false = false)
        ∧ _should_skip_backup_on_decrease ⟨some 90, some 0,
            _compute_backup_signature ⟨"t", "o/r", "main", "backup/chat_export"⟩ "x" ""⟩
            90 0 = true)
      ∧ (maybe_backup_to_github ⟨"t", "o/r", "main", "backup/chat_export"⟩ 700000
          "x" "" 90 0
          ⟨some 90, some 0,
            _compute_backup_signature ⟨"t", "o/r", "main", "backup/chat_export"⟩ "x" ""⟩
          none (none, none) false).decision = SyncDecision.noop
      ∧ (maybe_backup_to_github ⟨"t", "o/r", "main", "backup/chat_export"⟩ 700000
          "x" "" 90 0
          ⟨some 90, some 0,
            _compute_backup_signature ⟨"t", "o/r", "main", "backup/chat_export"⟩ "x" ""⟩
          none (none, none) false).remoteWrites = 0
      ∧ (maybe_backup_to_github ⟨"t", "o/r", "main", "backup/chat_export"⟩ 700000
          "x" "" 90 0
          ⟨some 90, some 0,
            _compute_backup_signature ⟨"t", "o/r", "main", "backup/chat_export"⟩ "x" ""⟩
          none (none, none) false).persisted
        = ⟨some 90, some 0,
            _compute_backup_signature ⟨"t", "o/r", "main", "backup/chat_export"⟩ "x" ""⟩ :=
  ⟨by decide,
    (c4_signature_noop_amended ⟨"t", "o/r", "main", "backup/chat_export"⟩ 700000
      "x" "" 90 0
      ⟨some 90, some 0,
        _compute_backup_signature ⟨"t", "o/r", "main", "backup/chat_export"⟩ "x" ""⟩
      none none (none, none) (none, none) false 90 0 rfl rfl (by decide)
      (Or.inr (pyStripStr_signature _ _ _))).1.1,
    (c4_signature_noop_amended ⟨"t", "o/r", "main", "backup/chat_export"⟩ 700000
      "x" "" 90 0
      ⟨some 90, some 0,
        _compute_backup_signature ⟨"t", "o/r", "main", "backup/chat_export"⟩ "x" ""⟩
      none none (none, none) (none, none) false 90 0 rfl rfl (by decide)
      (Or.inr (pyStripStr_signature _ _ _))).1.2.1,
    (c4_signature_noop_amended ⟨"t", "o/r", "main", "backup/chat_export"⟩ 700000
      "x" "" 90 0
      ⟨some 90, some 0,
        _compute_backup_signature ⟨"t", "o/r", "main", "backup/chat_export"⟩ "x" ""⟩
      none none (none, none) (none, none) false 90 0 rfl rfl (by decide)
      (Or.inr (pyStripStr_signature _ _ _))).1.2.2.2⟩

/-- C5 counterexample: a configured value of 5 minutes yields an interval
of 300 seconds — well below 3600 seconds, so the floor the code enforces
for positive values is not 1 hour. -/
theorem c5_interval_floor_counterexample :
    _get_periodic_backup_interval_seconds (.minutes 5) = 300
      ∧ _get_periodic_backup_interval_seconds (.minutes 5) < 3600 := by
  constructor <;> norm_num [_get_periodic_backup_interval_seconds]

/-- C5 amended: the interval is 43200 seconds (12 hours) when the
environment value is unset; a positive configured value of `m` minutes is
minimum-enforced at a 60-second (1-minute, not 1-hour) floor, namely
`max 60 (m * 60)` seconds; and a non-positive value disables periodic
scheduling entirely — the interval is 0 and no background loop thread is
started, whatever the config or the started flag. -/
theorem c5_interval_amended (m : ℚ) :
    _get_periodic_backup_interval_seconds .unset = 43200
      ∧ (0 < m →
          _get_periodic_backup_interval_seconds (.minutes m) = max 60 (m * 60)
            ∧ 60 ≤ _get_periodic_backup_interval_seconds (.minutes m))
      ∧ (m ≤ 0 →
          _get_periodic_backup_interval_seconds (.minutes m) = 0
            ∧ ∀ (cfg : Option GitHubBackupConfig) (started : Bool),
                start_periodic_github_backup (.minutes m) cfg started
                  = (false, false)) := by
  refine ⟨rfl, fun hm => ⟨?_, ?_⟩, fun hm => ⟨?_, ?_⟩⟩
  · simp [_get_periodic_backup_interval_seconds, not_le.mpr hm]
  · simp [_get_periodic_backup_interval_seconds, not_le.mpr hm]
  · simp [_get_periodic_backup_interval_seconds, hm]
  · intro cfg started
    simp [start_periodic_github_backup, _get_periodic_backup_interval_seconds, hm]

/-- Witness for the amended C5 at concrete positive and non-positive
configured values. -/
theorem c5_interval_witness :
    ((0 : ℚ) < 5
        ∧ _get_periodic_backup_interval_seconds (.minutes 5) = max 60 (5 * 60)
        ∧ 60 ≤ _get_periodic_backup_interval_seconds (.minutes 5))
      ∧ ((-1 : ℚ) ≤ 0
        ∧ _get_periodic_backup_interval_seconds (.minutes (-1)) = 0
        ∧ start_periodic_github_backup (.minutes (-1))
            (some ⟨"t", "o/r", "main", "backup/chat_export"⟩) false
          = (false, false)) :=
  ⟨⟨by norm_num, (c5_interval_amended 5).2.1 (by norm_num)⟩,
    ⟨by norm_num, ((c5_interval_amended (-1)).2.2 (by norm_num)).1,
      ((c5_interval_amended (-1)).2.2 (by norm_num)).2
        (some ⟨"t", "o/r", "main", "backup/chat_export"⟩) false⟩⟩

/-- C6 counterexample: canonical content that begins with the manifest
header but whose body is not valid JSON (`json.loads` fails, a
DecodeFailure) is returned verbatim by the download — the malformed
manifest text itself — rather than "no data"; so content carrying the
manifest header is not excluded from the verbatim-payload fallback. -/
theorem c6_malformed_manifest_counterexample :
    pyStripStr ((pySplitlinesStr "# CHAT_BACKUP_PARTS v1\nnot json").headD "")
        = _CHAT_PARTS_HEADER
      ∧ _download_chat_backup
          (fun p => if p = "pfx.txt"
            then some "# CHAT_BACKUP_PARTS v1\nnot json" else none)
          (fun _ => none) "pfx"
        = DownloadResult.content "# CHAT_BACKUP_PARTS v1\nnot json"
      ∧ DownloadResult.content "# CHAT_BACKUP_PARTS v1\nnot json"
          ≠ DownloadResult.notFound
      ∧ DownloadResult.content "# CHAT_BACKUP_PARTS v1\nnot json"
          ≠ DownloadResult.raised := by
  refine ⟨by decide, ?_, by decide, by decide⟩
  decide

/-- C6 amended: if the canonical path's content begins with the manifest
version header but the manifest body fails JSON decoding (or otherwise
yields no usable parts list), `_download_chat_backup` returns that content
verbatim — exactly the same fallback as content that does not carry the
header.  A malformed manifest is thus treated as an ordinary unchunked
payload, not as an unrecoverable read returning no data.  (Only a body
that decodes to a non-dict JSON value raises, which the caller catches and
converts to no data for the cycle.) -/
theorem c6_malformed_manifest_amended (files : String → Option String)
    (jsonLoads : String → Option PyJson) (prefixPath raw : String)
    (h : files (prefixPath ++ ".txt") = some raw) :
    (∀ first rest, pySplitlinesStr raw = first :: rest →
        pyStripStr first = _CHAT_PARTS_HEADER →
        pyStripStr (String.intercalate "\n" rest) ≠ "" →
        jsonLoads (pyStripStr (String.intercalate "\n" rest)) = none →
        _download_chat_backup files jsonLoads prefixPath = DownloadResult.content raw)
      ∧ (_parse_chat_parts_manifest jsonLoads raw = ManifestResult.notManifest →
          _download_chat_backup files jsonLoads prefixPath
            = DownloadResult.content raw) := by
  have hdl : ∀ _hp : _parse_chat_parts_manifest jsonLoads raw = ManifestResult.notManifest,
      _download_chat_backup files jsonLoads prefixPath = DownloadResult.content raw := by
    intro hp
    unfold _download_chat_backup
    simp only [h, hp]
  refine ⟨?_, hdl⟩
  intro first rest hsplit hheader hbody hjson
  apply hdl
  unfold _parse_chat_parts_manifest
  rw [hsplit]
  dsimp only
  rw [if_neg (by simp [hheader])]
  simp only [hbody, if_false, hjson]

/-- Witness for the amended C6 at the concrete malformed manifest. -/
theorem c6_malformed_manifest_witness :
    (fun p => if p = "pfx.txt"
        then some "# CHAT_BACKUP_PARTS v1\nnot json" else none)
        ("pfx" ++ ".txt") = some "# CHAT_BACKUP_PARTS v1\nnot json"
      ∧ _download_chat_backup
          (fun p => if p = "pfx.txt"
            then some "# CHAT_BACKUP_PARTS v1\nnot json" else none)
          (fun _ => none) "pfx"
        = DownloadResult.content "# CHAT_BACKUP_PARTS v1\nnot json" :=
  ⟨by decide,
    (c6_malformed_manifest_amended
      (fun p => if p = "pfx.txt"
        then some "# CHAT_BACKUP_PARTS v1\nnot json" else none)
      (fun _ => none) "pfx" "# CHAT_BACKUP_PARTS v1\nnot json" (by decide)).1
      "# CHAT_BACKUP_PARTS v1" ["not json"] (by decide) (by decide) (by decide) rfl⟩
